import Mathlib

/-!
Shallow embedding of the `sync_telechat` program (Go), covering both variants
present in the repository:

* the HTML-scraping variant (`sync_telechat.go` / `part_000`): `expand`,
  `contains`, `ExtractDoc`, `isdoc`, `ExtractDate`, `fetch_doc`, `fetch_docs`,
  `fetch_iesg_agenda`, `main`;
* the JSON variant (`part_001`): `expand`, `fetchDoc`, `fetchDocs`,
  `fetchAgenda`, `parseFlags`, `main`.

Go strings are modelled as Lean `String` (lists of characters); file-system and
network effects are modelled by an explicit `World` record of oracles plus a
set of existing paths that is threaded through the functions; fallible
operations return `Except`.
-/

/-! ## Basic string / path helpers -/

/-- Models Go `strings.HasPrefix s pre`. -/
def startsWithStr (s pre : String) : Bool :=
  pre.data.isPrefixOf s.data

/-- Models Go `filepath.Join a b` for already-clean components. -/
def filepathJoin (a b : String) : String :=
  a ++ "/" ++ b

/-- Constant `kUnknownTelechat`: string used if the telechat date is unknown. -/
def kUnknownTelechat : String := "Unknown-date"

/-- Constant `kDocURL` (`kDocUrl` in the HTML variant): where PDF drafts live. -/
def kDocURL : String := "https://tools.ietf.org/pdf/"

/-- Models `expand` (both variants): expand a leading `~` to the home
directory.  The `user.Current()` lookup is modelled by passing the home
directory in as `home` (its error path is ignored by `main`, which discards
the error: `basedir, _ := expand(...)`). -/
def expand (home path : String) : String :=
  if path.length = 0 then path
  else if startsWithStr path "~" = false then path
  else filepathJoin home (path.drop 1)

/-! ## Agenda data model

The Go code stores the agenda as `map[string][]string`.  We model it as an
association list together with Go-map-like `lookup` (missing key reads as the
empty slice) and append-to-key update. -/

/-- The agenda: date key mapped to the list of document identifiers. -/
def AgendaMap := List (String × List String)

instance : DecidableEq AgendaMap := by
  unfold AgendaMap
  infer_instance

/-- Reading `m[k]` from a Go `map[string][]string`: a missing key yields
the nil slice, i.e. `[]`. -/
def lookupA : AgendaMap → String → List String
  | [], _ => []
  | (k', vs) :: rest, k => if k' = k then vs else lookupA rest k

/-- Models the Go statement `m[k] = append(m[k], v)`. -/
def appendA : AgendaMap → String → String → AgendaMap
  | [], k, v => [(k, [v])]
  | (k', vs) :: rest, k, v =>
    if k' = k then (k', vs ++ [v]) :: rest
    else (k', vs) :: appendA rest k v

/-! ## HTML agenda source (`sync_telechat.go` / `part_000`) -/

/-- Models the helper `contains`: checks if a slice already contains an item. -/
def contains : List String → String → Bool
  | [], _ => false
  | entry :: rest, item => if entry = item then true else contains rest item

/-- Models `ExtractDoc`: returns the string if it is an Internet-Draft name
(has the prefix `draft-`), else the empty string. -/
def ExtractDoc (document : String) : String :=
  if startsWithStr document "draft-" then document else ""

/-- Models `isdoc` on a token's attribute list: is some `href` attribute a
link starting with `/doc/draft`?  (The Go loop keeps scanning after a
non-matching `href`, so this is an existential over all attributes.) -/
def isdoc : List (String × String) → Bool
  | [] => false
  | (k, v) :: rest =>
    if k = "href" then
      if startsWithStr v "/doc/draft" then true else isdoc rest
    else isdoc rest

/-- Helper for the Go regexp `IESG telechat (.*)`: try to match `pat`
literally at the start of `s`; on success return the remaining characters. -/
def matchAfter : List Char → List Char → Option (List Char)
  | [], s => some s
  | _ :: _, [] => none
  | p :: ps, c :: cs => if p = c then matchAfter ps cs else none

/-- Helper for the Go regexp: find the leftmost occurrence of `pat` in `s`
and return the characters after it; `none` if `pat` occurs nowhere. -/
def findAfter (pat : List Char) : List Char → Option (List Char)
  | [] => matchAfter pat []
  | c :: cs =>
    match matchAfter pat (c :: cs) with
    | some rest => some rest
    | none => findAfter pat cs

/-- The literal part of the regexp `"IESG telechat (.*)"`. -/
def kTelechatPat : List Char := "IESG telechat ".data

/-- Models `ExtractDate`: `regexp.MustCompile("IESG telechat (.*)")` followed
by `FindStringSubmatch`.  The regexp is unanchored, so it matches at the
leftmost occurrence of the literal `"IESG telechat "`; the capture `(.*)` is
the following run of characters up to (not including) a newline, since `.`
does not match `\n`.  If there is no match the sentinel is returned. -/
def ExtractDate (telechat : String) : String :=
  match findAfter kTelechatPat telechat.data with
  | none => kUnknownTelechat
  | some rest => String.mk (rest.takeWhile (fun c => c ≠ '\n'))

/-- HTML tokenizer tokens, as seen by the scanning loop of
`fetch_iesg_agenda`: the loop only distinguishes the error token, start tags
(with their attributes) and — via `z.Text()` — text tokens. -/
inductive Tok where
  | errorTok
  | startTag (data : String) (attrs : List (String × String))
  | textTok (text : String)
  | otherTok
deriving DecidableEq

/-- Models the `z.Next(); ... z.Text()` idiom: the text of the upcoming token
if it is a text token, else the empty string. -/
def headText : List Tok → String
  | Tok.textTok s :: _ => s
  | _ => ""

/-- One document-anchor step of `fetch_iesg_agenda`'s loop:
`docname := ExtractDoc(z.Text())`, then
`if docname != "" && !contains(result[date], docname) { result[date] = append(result[date], docname) }`. -/
def scanStep (m : AgendaMap) (date txt : String) : AgendaMap :=
  let docname := ExtractDoc txt
  if docname ≠ "" ∧ contains (lookupA m date) docname = false
  then appendA m date docname else m

/-- Models the token-scanning loop of `fetch_iesg_agenda`: iterate over the
token stream; stop at the error token (end of document); on an `<a>` start
tag that `isdoc` accepts, advance once and record the text as a document for
the current date; on an `<h2>` start tag, advance once and set the current
date from the text via `ExtractDate`; skip everything else.  When the stream
is exhausted while advancing, the tokenizer returns an error token next and
the loop ends (text of the end is the empty string, which `ExtractDoc`
rejects). -/
def scan : List Tok → String → AgendaMap → AgendaMap
  | [], _, m => m
  | t :: ts, date, m =>
    match t with
    | Tok.errorTok => m
    | Tok.startTag d attrs =>
      if d = "a" then
        if isdoc attrs then
          match ts with
          | [] => scanStep m date (headText [])
          | _ :: ts' => scan ts' date (scanStep m date (headText ts))
        else scan ts date m
      else if d = "h2" then
        match ts with
        | [] => m
        | _ :: ts' => scan ts' (ExtractDate (headText ts)) m
      else scan ts date m
    | Tok.textTok _ => scan ts date m
    | Tok.otherTok => scan ts date m

/-- Models `fetch_iesg_agenda`: on a transport error it logs and returns the
empty map; otherwise it scans the tokenized page starting from the sentinel
date (`date := kUnknownTelechat`, "in case we find a document before we find
the date") and the empty result map. -/
def fetch_iesg_agenda (resp : Except String (List Tok)) : AgendaMap :=
  match resp with
  | Except.error _ => []
  | Except.ok toks => scan toks kUnknownTelechat []

/-! ## JSON agenda source (`part_001`) -/

/-- Decoded JSON values, as produced by `json.Unmarshal` into
`map[string]interface{}` / `interface{}`. -/
inductive JVal where
  | null
  | boolean (b : Bool)
  | num (n : Int)
  | str (s : String)
  | arr (elems : List JVal)
  | obj (fields : List (String × JVal))

/-- Reading `m[k]` from a decoded JSON object: `none` models a missing key
(a `nil` interface value in Go). -/
def jlookup (fields : List (String × JVal)) (k : String) : Option JVal :=
  (fields.find? (fun p => p.1 = k)).map (fun p => p.2)

/-- The ways `fetchAgenda` can fail, following the spec's taxonomy:
`fetchErr` models transport/read failures returned as errors, `decodeErr`
models `json.Unmarshal` failures returned as errors, and `panic` models a Go
runtime panic raised by a failed unchecked type assertion (the argument names
the assertion site; the runtime message is abstracted). -/
inductive AErr where
  | fetchErr (msg : String)
  | decodeErr (msg : String)
  | panic (site : String)
deriving DecidableEq

/-- Discriminator: is this `fetchAgenda` result a decode error value returned
to the caller (as opposed to a success, a transport error, or a panic)? -/
def isDecodeError (r : Except AErr AgendaMap) : Bool :=
  match r with
  | Except.error (AErr.decodeErr _) => true
  | _ => false

/-- One document of a section:
`doc := doc.(map[string]interface{}); docname := doc["docname"].(string);
rev := doc["rev"].(string); result[date] = append(result[date], docname+"-"+rev)`.
Each failed type assertion is a runtime panic. -/
def decodeDoc (date : String) (acc : AgendaMap) (doc : JVal) : Except AErr AgendaMap :=
  match doc with
  | JVal.obj dfields =>
    match jlookup dfields "docname" with
    | some (JVal.str docname) =>
      match jlookup dfields "rev" with
      | some (JVal.str rev) => Except.ok (appendA acc date (docname ++ "-" ++ rev))
      | _ => Except.error (AErr.panic "rev")
    | _ => Except.error (AErr.panic "docname")
  | _ => Except.error (AErr.panic "doc")

/-- The `for _, doc := range docs.([]interface{})` loop. -/
def decodeDocs (date : String) (acc : AgendaMap) : List JVal → Except AErr AgendaMap
  | [] => Except.ok acc
  | d :: ds =>
    match decodeDoc date acc d with
    | Except.error e => Except.error e
    | Except.ok acc' => decodeDocs date acc' ds

/-- One section: `content := sections[section].(map[string]interface{})`
(panic if not an object); `if content["docs"] != nil` (a missing key or a
JSON null is a nil interface, so both are skipped); then
`docs.([]interface{})` (panic if not an array; the `len(...) > 0` guard is
extensionally redundant since the loop over an empty slice does nothing). -/
def decodeSection (date : String) (acc : AgendaMap) (content : JVal) : Except AErr AgendaMap :=
  match content with
  | JVal.obj cfields =>
    match jlookup cfields "docs" with
    | none => Except.ok acc
    | some JVal.null => Except.ok acc
    | some (JVal.arr docs) => decodeDocs date acc docs
    | some _ => Except.error (AErr.panic "docs")
  | _ => Except.error (AErr.panic "section")

/-- The `for section := range sections` loop.  Go map iteration order is
unspecified; the model iterates the decoded field list in order. -/
def decodeSections (date : String) (acc : AgendaMap) : List (String × JVal) → Except AErr AgendaMap
  | [] => Except.ok acc
  | (_, content) :: rest =>
    match decodeSection date acc content with
    | Except.error e => Except.error e
    | Except.ok acc' => decodeSections date acc' rest

/-- The post-`Unmarshal` part of `fetchAgenda`.  `json.Unmarshal` into
`map[string]interface{}` returns an error for a well-formed JSON value that
is not an object (modelled by the catch-all `decodeErr` case), except that a
top-level JSON `null` succeeds and leaves the map `nil`, after which
`agenda["telechat-date"].(string)` reads a nil interface and panics.
For an object: `date := agenda["telechat-date"].(string)` (panic if missing
or not a string), `sections = agenda["sections"].(map[string]interface{})`
(panic if missing or not an object), then the sections loop. -/
def decodePayload : JVal → Except AErr AgendaMap
  | JVal.obj fields =>
    (match jlookup fields "telechat-date" with
     | some (JVal.str date) =>
       (match jlookup fields "sections" with
        | some (JVal.obj sections) => decodeSections date [] sections
        | _ => Except.error (AErr.panic "sections"))
     | _ => Except.error (AErr.panic "telechat-date"))
  | JVal.null => Except.error (AErr.panic "telechat-date")
  | _ => Except.error (AErr.decodeErr "json: cannot unmarshal value into map")

/-- The agenda HTTP response, as `fetchAgenda` observes it: a transport
error from `http.Get`, a read error from `ioutil.ReadAll`, a body that is
not syntactically valid JSON (`json.Unmarshal` returns an error), or a
decoded JSON value. -/
inductive AgendaResp where
  | transportErr (msg : String)
  | readErr (msg : String)
  | badJSON (msg : String)
  | json (j : JVal)

/-- Models `fetchAgenda` (`part_001`): transport and read failures and
`Unmarshal` failures are returned as wrapped error values (with the
`fmt.Errorf` message prefixes of the source); a decoded value is then walked
by the unchecked type assertions of `decodePayload`. -/
def fetchAgenda (resp : AgendaResp) : Except AErr AgendaMap :=
  match resp with
  | AgendaResp.transportErr m => Except.error (AErr.fetchErr ("error fetching agenda: " ++ m))
  | AgendaResp.readErr m => Except.error (AErr.fetchErr ("error reading agenda: " ++ m))
  | AgendaResp.badJSON m => Except.error (AErr.decodeErr ("error unmarshalling agenda: " ++ m))
  | AgendaResp.json j => decodePayload j

/-! Constructors for well-formed JSON agenda payloads, used to state what
`fetchAgenda` does on structurally well-formed inputs. -/

/-- A well-formed document entry `{"docname": name, "rev": rev}`. -/
def mkDoc (p : String × String) : JVal :=
  JVal.obj [("docname", JVal.str p.1), ("rev", JVal.str p.2)]

/-- A well-formed section `{"docs": [...]}`. -/
def mkSection (docs : List (String × String)) : JVal :=
  JVal.obj [("docs", JVal.arr (docs.map mkDoc))]

/-- A well-formed agenda payload with the given telechat date and sections
(each section a name plus its list of `(docname, rev)` pairs). -/
def mkPayload (date : String) (sections : List (String × List (String × String))) : JVal :=
  JVal.obj
    [("telechat-date", JVal.str date),
     ("sections", JVal.obj (sections.map (fun s => (s.1, mkSection s.2))))]

/-- The document identifiers a well-formed payload should yield, in section
order: each `(docname, rev)` becomes `docname ++ "-" ++ rev`. -/
def idsOf (sections : List (String × List (String × String))) : List String :=
  (sections.map (fun s => s.2.map (fun p => p.1 ++ "-" ++ p.2))).flatten

/-- Append a whole list of identifiers under one date key, one at a time. -/
def appendAll (m : AgendaMap) (date : String) (ids : List String) : AgendaMap :=
  ids.foldl (fun m' v => appendA m' date v) m

/-! ## Fetch coordinator (`fetch_doc`/`fetch_docs` and `fetchDoc`/`fetchDocs`)

The per-document fetch logic is identical in both variants (the JSON variant
merely adds a `close(channel)` after the collection loop).  Effects are
modelled by a `World`: the set of existing file-system paths plus fixed
oracles giving the result of `os.Create`, `http.Get`, `io.Copy` and
`os.Mkdir` at each path/URL. -/

/-- Result of `os.Mkdir`: success, an `os.IsExist` error, or any other
error. -/
inductive MkdirRes where
  | ok
  | alreadyExists
  | otherErr (msg : String)
deriving DecidableEq

/-- The file system and network, as the program observes them.  `paths` is
the set of existing paths (with an is-directory flag — `os.Stat` itself does
not distinguish, which is faithful to the code); the remaining fields are
oracles for the outcome of each effectful call (`none` = success for
`createRes`/`getRes`). -/
structure World where
  paths : List (String × Bool)
  createRes : String → Option String
  getRes : String → Option String
  copyRes : String → Except String Nat
  mkdirRes : String → MkdirRes
  agendaResp : AgendaResp

/-- Models `os.Stat(p)` succeeding: the path exists (file or directory). -/
def statOk (w : World) (p : String) : Bool :=
  w.paths.any (fun q => q.1 = p)

/-- The destination path `filepath.Join(basedir, date, document + ".pdf")`. -/
def docPath (basedir date document : String) : String :=
  filepathJoin (filepathJoin basedir date) (document ++ ".pdf")

/-- The five shapes of the single outcome string a retrieval task posts to
the `done` channel, in structured form; `render` below produces the exact
`fmt.Sprintf` strings of the source. -/
inductive Outcome where
  | alreadyExisted (date filename : String)
  | createError (fullname msg : String)
  | downloadError (url msg : String)
  | copyError (url msg : String)
  | downloaded (date filename : String) (n : Nat)
deriving DecidableEq

/-- The exact outcome strings of `fetch_doc`/`fetchDoc`. -/
def Outcome.render : Outcome → String
  | Outcome.alreadyExisted date filename => date ++ ": " ++ filename ++ " already existed."
  | Outcome.createError fullname msg => "Error creating " ++ fullname ++ ": " ++ msg
  | Outcome.downloadError url msg => "Error while downloading " ++ url ++ "-" ++ msg
  | Outcome.copyError url msg => "Error while downloading: " ++ url ++ " - " ++ msg ++ " "
  | Outcome.downloaded date filename n => date ++ ": Downloaded " ++ filename ++ ": " ++ toString n ++ " bytes."

/-- The effectful calls a retrieval task can make, in order. -/
inductive Act where
  | statA (path : String)
  | createA (path : String)
  | getA (url : String)
  | copyA (url : String)
deriving DecidableEq

/-- Models one retrieval task (`fetch_doc` in the HTML variant, `fetchDoc` in
the JSON variant): stat the destination; if it exists report "already
existed" and stop; otherwise create the file (on success the path now
exists, and stays on disk even if the download then fails), issue the GET,
stream-copy the body, and report exactly one outcome.  Returns the outcome,
the world after the task, and the trace of effectful calls made. -/
def fetchDoc (w : World) (basedir date document : String) : Outcome × World × List Act :=
  let filename := document ++ ".pdf"
  let url := kDocURL ++ filename
  let fullname := docPath basedir date document
  if statOk w fullname then
    (Outcome.alreadyExisted date filename, w, [Act.statA fullname])
  else
    match w.createRes fullname with
    | some e => (Outcome.createError fullname e, w, [Act.statA fullname, Act.createA fullname])
    | none =>
      let w1 : World := { w with paths := (fullname, false) :: w.paths }
      match w.getRes url with
      | some e =>
        (Outcome.downloadError url e, w1, [Act.statA fullname, Act.createA fullname, Act.getA url])
      | none =>
        match w.copyRes url with
        | Except.error e =>
          (Outcome.copyError url e, w1,
           [Act.statA fullname, Act.createA fullname, Act.getA url, Act.copyA url])
        | Except.ok n =>
          (Outcome.downloaded date filename n, w1,
           [Act.statA fullname, Act.createA fullname, Act.getA url, Act.copyA url])

/-- The flattened list of `(date, document)` pairs launched by the nested
`for date := range documents { for _, document := range documents[date] }`
loops, in iteration order. -/
def tasksOf : AgendaMap → List (String × String)
  | [] => []
  | (date, docs) :: rest => docs.map (fun doc => (date, doc)) ++ tasksOf rest

/-- The total number of `(date key, identifier)` pairs in an agenda; this is
the final value of the `doccount` counter. -/
def totalCount (documents : AgendaMap) : Nat :=
  (tasksOf documents).length

/-- Models the directory-preparation loop of `fetch_docs`/`fetchDocs`:
`os.Mkdir(filepath.Join(basedir, date), 0777)` for every date key;
`err != nil && !os.IsExist(err)` is fatal (`glog.Fatal`, modelled as the
error case); an "already exists" failure is skipped like a success. -/
def mkdirAll (w : World) (basedir : String) : List String → Except String Unit
  | [] => Except.ok ()
  | date :: rest =>
    match w.mkdirRes (filepathJoin basedir date) with
    | MkdirRes.otherErr e =>
      Except.error ("Error making " ++ filepathJoin basedir date ++ ": " ++ e)
    | _ => mkdirAll w basedir rest

/-- What one wait cycle of the collection loop observes: either some task's
outcome arrives on `channel`, or the 10-second `time.After` fires first. -/
inductive CollectEvent where
  | arrival (s : String)
  | timeout
deriving DecidableEq

/-- The string appended for one wait cycle: the received outcome, or the
generic timeout filler. -/
def outcomeOf : CollectEvent → String
  | CollectEvent.arrival s => s
  | CollectEvent.timeout => "Timeout downloading a draft...."

/-- Models the collection loop
`for len(items) < doccount { select { case downloaded := <-channel: ...; case <-time.After(10s): ... } }`:
each wait cycle appends exactly one string (the arrival, or the timeout
filler).  The scheduler's choice at each cycle is the event stream `ev`. -/
def collectLoop (ev : Nat → CollectEvent) (doccount : Nat) (items : List String) (cycle : Nat) :
    List String :=
  if items.length < doccount then
    collectLoop ev doccount (items ++ [outcomeOf (ev cycle)]) (cycle + 1)
  else items
termination_by doccount - items.length
decreasing_by simp only [List.length_append, List.length_cons, List.length_nil]; omega

/-- Models `fetch_docs`/`fetchDocs` for the claims about outcome counting and
timeouts: prepare the directories (fatal on a non-`IsExist` failure), launch
one task per `(date, document)` pair (`doccount` of them), then run the
collection loop under an arbitrary arrival/timeout schedule `ev`. -/
def fetchDocsArrivals (w : World) (ev : Nat → CollectEvent) (basedir : String)
    (documents : AgendaMap) : Except String (List String) :=
  match mkdirAll w basedir (documents.map Prod.fst) with
  | Except.error e => Except.error e
  | Except.ok _ => Except.ok (collectLoop ev (totalCount documents) [] 0)

/-- Runs the launched retrieval tasks under the schedule in which every task
completes within its wait window, in launch order: the world is threaded from
task to task and the outcomes arrive in launch order.  This is the
deterministic execution used for the file-system claims (idempotence,
error isolation); arrival reordering and timeouts are modelled separately by
`collectLoop`. -/
def runTasks (w : World) (basedir : String) : List (String × String) → List Outcome × World
  | [] => ([], w)
  | (date, document) :: rest =>
    let r := fetchDoc w basedir date document
    let rr := runTasks r.2.1 basedir rest
    (r.1 :: rr.1, rr.2)

/-- Models `fetch_docs`/`fetchDocs` under the in-order completion schedule:
directory preparation, then one outcome per task via `runTasks`. -/
def fetchDocsSeq (w : World) (basedir : String) (documents : AgendaMap) :
    Except String (List Outcome × World) :=
  match mkdirAll w basedir (documents.map Prod.fst) with
  | Except.error e => Except.error e
  | Except.ok _ => Except.ok (runTasks w basedir (tasksOf documents))

/-! ## `parseFlags` and `main` (`part_001`) -/

/-- Observable result of one run of the JSON variant's `main`: the exit
status, whether `usage()` printed its message, whether the agenda HTTP
request was issued, whether directory preparation ran, and the printed
outcome strings. -/
structure RunResult where
  exitCode : Nat
  usageShown : Bool
  agendaAttempted : Bool
  dirsAttempted : Bool
  outcomes : List String
deriving DecidableEq

/-- Models `parseFlags` + `main` of the JSON variant.  `parseFlags` calls
`log.Fatal` (exit 1) if `--basedir` is empty; `main` expands `~`, aborts via
`usage()` (exit 2) if `os.Stat` on the base directory fails — note the check
is existence, not directory-ness — calls `fetchAgenda` (a returned error is
`log.Fatalf`, exit 1; a failed type assertion inside is a runtime panic,
exit 2), then `fetchDocs` (a directory-creation failure is `glog.Fatal`,
exit 255), prints each outcome and exits 0. -/
def mainModel (home bflag : String) (w : World) : RunResult :=
  if bflag = "" then
    { exitCode := 1, usageShown := false, agendaAttempted := false,
      dirsAttempted := false, outcomes := [] }
  else
    let basedir := expand home bflag
    if statOk w basedir = false then
      { exitCode := 2, usageShown := true, agendaAttempted := false,
        dirsAttempted := false, outcomes := [] }
    else
      match fetchAgenda w.agendaResp with
      | Except.error (AErr.panic _) =>
        { exitCode := 2, usageShown := false, agendaAttempted := true,
          dirsAttempted := false, outcomes := [] }
      | Except.error _ =>
        { exitCode := 1, usageShown := false, agendaAttempted := true,
          dirsAttempted := false, outcomes := [] }
      | Except.ok telechats =>
        match mkdirAll w basedir (telechats.map Prod.fst) with
        | Except.error _ =>
          { exitCode := 255, usageShown := false, agendaAttempted := true,
            dirsAttempted := true, outcomes := [] }
        | Except.ok _ =>
          { exitCode := 0, usageShown := false, agendaAttempted := true,
            dirsAttempted := true,
            outcomes := (runTasks w basedir (tasksOf telechats)).1.map Outcome.render }

/-! ## Lemmas about the collection loop -/

/-- Unfolding characterization of `collectLoop`: starting from `items`, the
loop appends exactly one string per wait cycle until `doccount` outcomes are
held. -/
theorem collectLoop_spec (ev : Nat → CollectEvent) (n : Nat) :
    ∀ (fuel : Nat) (items : List String) (cycle : Nat), n - items.length ≤ fuel →
      collectLoop ev n items cycle =
        items ++ (List.range (n - items.length)).map (fun j => outcomeOf (ev (cycle + j))) := by
  intro fuel
  induction fuel with
  | zero =>
    intro items cycle h
    rw [collectLoop]
    have hle : ¬ items.length < n := by omega
    have h0 : n - items.length = 0 := by omega
    simp [hle, h0]
  | succ fuel ih =>
    intro items cycle h
    rw [collectLoop]
    by_cases hlt : items.length < n
    · simp only [hlt, if_true]
      rw [ih (items ++ [outcomeOf (ev cycle)]) (cycle + 1) (by simp; omega)]
      have hk : n - items.length = (n - (items.length + 1)) + 1 := by omega
      rw [List.append_assoc, List.singleton_append, List.length_append]
      simp only [List.length_cons, List.length_nil, Nat.add_zero]
      rw [hk, List.range_succ_eq_map, List.map_cons, List.map_map]
      have hfun : ∀ j : Nat, cycle + 1 + j = cycle + (j + 1) := by omega
      simp [Function.comp, hfun]
    · have h0 : n - items.length = 0 := by omega
      simp [hlt, h0]

/-- Closed form of the collection loop from an empty accumulator: one string
per slot, in cycle order. -/
theorem collectLoop_closed (ev : Nat → CollectEvent) (n : Nat) :
    collectLoop ev n [] 0 = (List.range n).map (fun j => outcomeOf (ev j)) := by
  have h := collectLoop_spec ev n n [] 0 (by simp)
  simpa using h

/-! ## Claim C1 -/

/-- C1: for every agenda and base directory, whenever the fetch coordinator
(`fetch_docs`/`fetchDocs`) returns, it returns one outcome string per
`(date key, identifier)` pair of the agenda — exactly `totalCount documents`
of them, whatever the arrival/timeout schedule; each launched task
contributes exactly one outcome per collection slot. -/
theorem claim_C1 (w : World) (ev : Nat → CollectEvent) (basedir : String)
    (documents : AgendaMap) (res : List String)
    (h : fetchDocsArrivals w ev basedir documents = Except.ok res) :
    res.length = totalCount documents := by
  unfold fetchDocsArrivals at h
  cases hm : mkdirAll w basedir (documents.map Prod.fst) with
  | error e => rw [hm] at h; cases h
  | ok u =>
    rw [hm] at h
    cases h
    rw [collectLoop_closed]
    simp

/-- A concrete world whose directory creation always succeeds. -/
def wMkdirOk : World :=
  { paths := [], createRes := fun _ => none, getRes := fun _ => none,
    copyRes := fun _ => Except.ok 7, mkdirRes := fun _ => MkdirRes.ok,
    agendaResp := AgendaResp.badJSON "unused" }

/-- A two-date, three-document agenda used by witnesses. -/
def docsC1 : AgendaMap := [("2024-01-10", ["draft-a-00", "draft-b-01"]), ("2024-01-24", ["draft-c-02"])]

/-- An all-timeouts schedule. -/
def evTimeout : Nat → CollectEvent := fun _ => CollectEvent.timeout

theorem claim_C1_witness :
    fetchDocsArrivals wMkdirOk evTimeout "/base" docsC1 =
      Except.ok ((List.range (totalCount docsC1)).map (fun j => outcomeOf (evTimeout j))) ∧
    ((List.range (totalCount docsC1)).map (fun j => outcomeOf (evTimeout j))).length =
      totalCount docsC1 := by
  have hm : mkdirAll wMkdirOk "/base" (docsC1.map Prod.fst) = Except.ok () := rfl
  have h : fetchDocsArrivals wMkdirOk evTimeout "/base" docsC1 =
      Except.ok ((List.range (totalCount docsC1)).map (fun j => outcomeOf (evTimeout j))) := by
    unfold fetchDocsArrivals
    rw [hm, collectLoop_closed]
  exact ⟨h, claim_C1 wMkdirOk evTimeout "/base" docsC1 _ h⟩

/-! ## Claim C5 -/

/-- C5: the collection loop records, for every slot whose wait cycle ends in
a timeout, the generic string `"Timeout downloading a draft...."`, and keeps
looping for the remaining count: it produces exactly one string per wait
cycle (the arrived outcome or the filler) and never stops before the number
of collected items reaches the number of launched tasks. -/
theorem claim_C5 (ev : Nat → CollectEvent) (doccount : Nat) :
    (collectLoop ev doccount [] 0 =
       (List.range doccount).map (fun j => outcomeOf (ev j))) ∧
    (collectLoop ev doccount [] 0).length = doccount ∧
    (∀ i, i < doccount → ev i = CollectEvent.timeout →
       (collectLoop ev doccount [] 0)[i]? = some "Timeout downloading a draft....") := by
  refine ⟨collectLoop_closed ev doccount, ?_, ?_⟩
  · rw [collectLoop_closed]; simp
  · intro i hi hev
    rw [collectLoop_closed]
    rw [List.getElem?_map, List.getElem?_range hi]
    simp [hev, outcomeOf]

theorem claim_C5_witness :
    (collectLoop evTimeout 2 [] 0)[0]? = some "Timeout downloading a draft...." ∧
    (collectLoop evTimeout 2 [] 0).length = 2 := by
  exact ⟨(claim_C5 evTimeout 2).2.2 0 (by decide) rfl, (claim_C5 evTimeout 2).2.1⟩

/-! ## Lemmas about the agenda map and the HTML scanner -/

theorem lookupA_appendA_self (m : AgendaMap) (k v : String) :
    lookupA (appendA m k v) k = lookupA m k ++ [v] := by
  induction m with
  | nil => simp [appendA, lookupA]
  | cons p rest ih =>
    obtain ⟨k', vs⟩ := p
    by_cases h : k' = k <;> simp [appendA, lookupA, h, ih]

theorem lookupA_appendA_ne (m : AgendaMap) (k k' v : String) (h : k' ≠ k) :
    lookupA (appendA m k v) k' = lookupA m k' := by
  induction m with
  | nil => simp [appendA, lookupA, Ne.symm h]
  | cons p rest ih =>
    obtain ⟨k₀, vs⟩ := p
    simp only [appendA]
    by_cases h0 : k₀ = k
    · rw [if_pos h0]
      subst h0
      simp only [lookupA]
      rw [if_neg (fun hh : k₀ = k' => h hh.symm), if_neg (fun hh : k₀ = k' => h hh.symm)]
    · rw [if_neg h0]
      simp only [lookupA]
      by_cases h1 : k₀ = k'
      · rw [if_pos h1, if_pos h1]
      · rw [if_neg h1, if_neg h1]
        exact ih

theorem contains_iff (l : List String) (x : String) : contains l x = true ↔ x ∈ l := by
  induction l with
  | nil => simp [contains]
  | cons a rest ih =>
    by_cases h : a = x
    · subst h; simp [contains]
    · simp [contains, h, ih]
      intro hx
      exact absurd hx.symm h

/-- `scanStep` only extends the entry of the current date key; membership in
any entry is preserved. -/
theorem mem_lookupA_scanStep (m : AgendaMap) (date txt k x : String)
    (h : x ∈ lookupA m k) : x ∈ lookupA (scanStep m date txt) k := by
  simp only [scanStep]
  by_cases hc : ExtractDoc txt ≠ "" ∧ contains (lookupA m date) (ExtractDoc txt) = false
  · rw [if_pos hc]
    by_cases hk : k = date
    · subst hk; rw [lookupA_appendA_self]; exact List.mem_append_left _ h
    · rw [lookupA_appendA_ne _ _ _ _ hk]; exact h
  · rw [if_neg hc]; exact h

/-- `scanStep` keeps per-key lists duplicate-free. -/
theorem nodup_scanStep (m : AgendaMap) (date txt : String)
    (h : ∀ k, (lookupA m k).Nodup) : ∀ k, (lookupA (scanStep m date txt) k).Nodup := by
  intro k
  simp only [scanStep]
  by_cases hc : ExtractDoc txt ≠ "" ∧ contains (lookupA m date) (ExtractDoc txt) = false
  · rw [if_pos hc]
    by_cases hk : k = date
    · subst hk
      rw [lookupA_appendA_self]
      have hni : ExtractDoc txt ∉ lookupA m k := by
        intro hmem
        rw [← contains_iff] at hmem
        rw [hc.2] at hmem
        cases hmem
      simp [List.nodup_append, h k, hni]
    · rw [lookupA_appendA_ne _ _ _ _ hk]; exact h k
  · rw [if_neg hc]; exact h k

/-! Unfolding equations for `scan`, one per loop situation. -/

theorem scan_nil (date : String) (m : AgendaMap) : scan [] date m = m := rfl

theorem scan_err (ts : List Tok) (date : String) (m : AgendaMap) :
    scan (Tok.errorTok :: ts) date m = m := rfl

theorem scan_a_end (attrs : List (String × String)) (date : String) (m : AgendaMap)
    (h : isdoc attrs = true) :
    scan [Tok.startTag "a" attrs] date m = scanStep m date (headText []) := by
  rw [scan.eq_def]; simp [h]

theorem scan_a_cons (attrs : List (String × String)) (t2 : Tok) (ts : List Tok)
    (date : String) (m : AgendaMap) (h : isdoc attrs = true) :
    scan (Tok.startTag "a" attrs :: t2 :: ts) date m =
      scan ts date (scanStep m date (headText (t2 :: ts))) := by
  rw [scan.eq_def]; simp [h]

theorem scan_a_not (attrs : List (String × String)) (ts : List Tok) (date : String)
    (m : AgendaMap) (h : ¬ isdoc attrs = true) :
    scan (Tok.startTag "a" attrs :: ts) date m = scan ts date m := by
  rw [scan.eq_def]; simp [h]

theorem scan_h2_end (attrs : List (String × String)) (date : String) (m : AgendaMap) :
    scan [Tok.startTag "h2" attrs] date m = m := by
  rw [scan.eq_def]; simp

theorem scan_h2_cons (attrs : List (String × String)) (t2 : Tok) (ts : List Tok)
    (date : String) (m : AgendaMap) :
    scan (Tok.startTag "h2" attrs :: t2 :: ts) date m =
      scan ts (ExtractDate (headText (t2 :: ts))) m := by
  rw [scan.eq_def]; simp

theorem scan_tag_other (d : String) (attrs : List (String × String)) (ts : List Tok)
    (date : String) (m : AgendaMap) (h1 : ¬ d = "a") (h2 : ¬ d = "h2") :
    scan (Tok.startTag d attrs :: ts) date m = scan ts date m := by
  rw [scan.eq_def]; simp [h1, h2]

theorem scan_text (s : String) (ts : List Tok) (date : String) (m : AgendaMap) :
    scan (Tok.textTok s :: ts) date m = scan ts date m := rfl

theorem scan_other (ts : List Tok) (date : String) (m : AgendaMap) :
    scan (Tok.otherTok :: ts) date m = scan ts date m := rfl

/-- Membership in the agenda is preserveded by the rest of the scan: the
scanner never removes an identifier once appended. -/
theorem mem_lookupA_scan (ts : List Tok) (date : String) (m : AgendaMap) (k x : String)
    (h : x ∈ lookupA m k) : x ∈ lookupA (scan ts date m) k := by
  induction ts, date, m using scan.induct with
  | case1 date m => exact h
  | case2 ts date m => exact h
  | case3 date m attrs hdoc =>
    rw [scan_a_end _ _ _ hdoc]
    exact mem_lookupA_scanStep _ _ _ _ _ h
  | case4 date m attrs hdoc head ts' ih =>
    rw [scan_a_cons _ _ _ _ _ hdoc]
    exact ih (mem_lookupA_scanStep _ _ _ _ _ h)
  | case5 ts date m attrs hdoc ih =>
    rw [scan_a_not _ _ _ _ hdoc]
    exact ih h
  | case6 date m attrs hne => rw [scan_h2_end]; exact h
  | case7 date m attrs head ts' hne ih =>
    rw [scan_h2_cons]
    exact ih h
  | case8 ts date m d attrs hda hdh2 ih =>
    rw [scan_tag_other _ _ _ _ _ hda hdh2]
    exact ih h
  | case9 ts date m text ih =>
    rw [scan_text]
    exact ih h
  | case10 ts date m ih =>
    rw [scan_other]
    exact ih h

/-- The whole scan keeps per-key lists duplicate-free. -/
theorem nodup_scan (ts : List Tok) (date : String) (m : AgendaMap)
    (h : ∀ k, (lookupA m k).Nodup) : ∀ k, (lookupA (scan ts date m) k).Nodup := by
  induction ts, date, m using scan.induct with
  | case1 date m => exact h
  | case2 ts date m => exact h
  | case3 date m attrs hdoc =>
    rw [scan_a_end _ _ _ hdoc]
    exact nodup_scanStep _ _ _ h
  | case4 date m attrs hdoc head ts' ih =>
    rw [scan_a_cons _ _ _ _ _ hdoc]
    exact ih (nodup_scanStep _ _ _ h)
  | case5 ts date m attrs hdoc ih =>
    rw [scan_a_not _ _ _ _ hdoc]
    exact ih h
  | case6 date m attrs hne => rw [scan_h2_end]; exact h
  | case7 date m attrs head ts' hne ih =>
    rw [scan_h2_cons]
    exact ih h
  | case8 ts date m d attrs hda hdh2 ih =>
    rw [scan_tag_other _ _ _ _ _ hda hdh2]
    exact ih h
  | case9 ts date m text ih =>
    rw [scan_text]
    exact ih h
  | case10 ts date m ih =>
    rw [scan_other]
    exact ih h

/-! ## Claim C2 -/

/-- C2 (amended): the HTML agenda source (`fetch_iesg_agenda`) checks each
candidate identifier against the list already accumulated for the current
date key (`contains`) and appends it only if absent, so the list stored
under any single date key never contains duplicates.  (The JSON source
`fetchAgenda` performs no such check — see the counterexample.) -/
theorem claim_C2 (resp : Except String (List Tok)) (k : String) :
    (lookupA (fetch_iesg_agenda resp) k).Nodup := by
  cases resp with
  | error e => simp [fetch_iesg_agenda, lookupA]
  | ok toks =>
    exact nodup_scan toks kUnknownTelechat [] (fun k' => by simp [lookupA]) k

/-- C2 counterexample: the JSON agenda source (`fetchAgenda`, cited by the
claim) does not deduplicate — a decoded payload listing the same
`docname`/`rev` twice yields a duplicated identifier under the date key. -/
theorem claim_C2_counterexample :
    fetchAgenda (AgendaResp.json
        (mkPayload "2024-01-10" [("s1", [("draft-a", "00"), ("draft-a", "00")])])) =
      Except.ok [("2024-01-10", ["draft-a-00", "draft-a-00"])] ∧
    ¬ (lookupA [("2024-01-10", ["draft-a-00", "draft-a-00"])] "2024-01-10").Nodup := by
  constructor
  · rfl
  · intro hnd
    have : lookupA [("2024-01-10", ["draft-a-00", "draft-a-00"])] "2024-01-10" =
        ["draft-a-00", "draft-a-00"] := rfl
    rw [this] at hnd
    simp at hnd

/-! ## Lemmas for the JSON decoder on well-formed payloads -/

theorem appendAll_append (m : AgendaMap) (date : String) (a b : List String) :
    appendAll m date (a ++ b) = appendAll (appendAll m date a) date b := by
  simp [appendAll, List.foldl_append]

theorem decodeDocs_mk (date : String) :
    ∀ (pairs : List (String × String)) (acc : AgendaMap),
      decodeDocs date acc (pairs.map mkDoc) =
        Except.ok (appendAll acc date (pairs.map (fun p => p.1 ++ "-" ++ p.2))) := by
  intro pairs
  induction pairs with
  | nil => intro acc; simp [decodeDocs, appendAll]
  | cons p rest ih =>
    intro acc
    obtain ⟨docname, rev⟩ := p
    simp only [List.map_cons, decodeDocs, decodeDoc, mkDoc, jlookup, List.find?]
    simp [appendAll, ih]

theorem decodeSections_mk (date : String) :
    ∀ (secs : List (String × List (String × String))) (acc : AgendaMap),
      decodeSections date acc (secs.map (fun s => (s.1, mkSection s.2))) =
        Except.ok (appendAll acc date (idsOf secs)) := by
  intro secs
  induction secs with
  | nil => intro acc; simp [decodeSections, idsOf, appendAll]
  | cons sec rest ih =>
    intro acc
    obtain ⟨name, docs⟩ := sec
    have hsec : decodeSection date acc (mkSection docs) =
        decodeDocs date acc (docs.map mkDoc) := by
      simp [decodeSection, mkSection, jlookup]
    simp only [List.map_cons, decodeSections]
    rw [hsec, decodeDocs_mk]
    simp only []
    rw [ih]
    have hids : idsOf ((name, docs) :: rest) =
        docs.map (fun p => p.1 ++ "-" ++ p.2) ++ idsOf rest := by
      simp [idsOf]
    rw [hids, appendAll_append]

theorem lookupA_appendAll_self (date : String) :
    ∀ (ids : List String) (m : AgendaMap),
      lookupA (appendAll m date ids) date = lookupA m date ++ ids := by
  intro ids
  induction ids with
  | nil => intro m; simp [appendAll]
  | cons v rest ih =>
    intro m
    have h1 : appendAll m date (v :: rest) = appendAll (appendA m date v) date rest := rfl
    rw [h1, ih, lookupA_appendA_self]
    simp

theorem lookupA_appendAll_ne (date k : String) (h : k ≠ date) :
    ∀ (ids : List String) (m : AgendaMap),
      lookupA (appendAll m date ids) k = lookupA m k := by
  intro ids
  induction ids with
  | nil => intro m; simp [appendAll]
  | cons v rest ih =>
    intro m
    have h1 : appendAll m date (v :: rest) = appendAll (appendA m date v) date rest := rfl
    rw [h1, ih, lookupA_appendA_ne _ _ _ _ h]

/-- What `decodePayload` does on a structurally well-formed payload. -/
theorem decodePayload_mkPayload (date : String) (secs : List (String × List (String × String))) :
    decodePayload (mkPayload date secs) = Except.ok (appendAll [] date (idsOf secs)) := by
  have h : decodePayload (mkPayload date secs) =
      decodeSections date [] (secs.map (fun s => (s.1, mkSection s.2))) := by
    simp [decodePayload, mkPayload, jlookup]
  rw [h, decodeSections_mk]

/-! ## Claim C9 -/

/-- C9: (JSON source) on a successfully decoded well-formed payload,
`fetchAgenda` walks the sections and appends, under the payload's telechat
date key, exactly the identifiers `docname ++ "-" ++ rev` in section order —
and nothing under any other key; (HTML source) a document anchor encountered
while the current date is still unknown is accumulated under the
`kUnknownTelechat` sentinel key rather than dropped. -/
theorem claim_C9 :
    (∀ (date : String) (secs : List (String × List (String × String))),
       fetchAgenda (AgendaResp.json (mkPayload date secs)) =
         Except.ok (appendAll [] date (idsOf secs)) ∧
       lookupA (appendAll [] date (idsOf secs)) date = idsOf secs ∧
       (∀ k, k ≠ date → lookupA (appendAll [] date (idsOf secs)) k = [])) ∧
    (∀ (attrs : List (String × String)) (s : String) (rest : List Tok) (m : AgendaMap),
       isdoc attrs = true → startsWithStr s "draft-" = true →
       s ∈ lookupA (scan (Tok.startTag "a" attrs :: Tok.textTok s :: rest) kUnknownTelechat m)
             kUnknownTelechat) := by
  constructor
  · intro date secs
    refine ⟨?_, ?_, ?_⟩
    · show decodePayload (mkPayload date secs) = _
      exact decodePayload_mkPayload date secs
    · rw [lookupA_appendAll_self]
      simp [lookupA]
    · intro k hk
      rw [lookupA_appendAll_ne _ _ hk]
      simp [lookupA]
  · intro attrs s rest m hdoc hpre
    have hdn : ExtractDoc s = s := by simp [ExtractDoc, hpre]
    have hne : s ≠ "" := by
      intro h
      rw [h] at hpre
      exact absurd hpre (by decide)
    rw [scan_a_cons _ _ _ _ _ hdoc]
    apply mem_lookupA_scan
    show s ∈ lookupA (scanStep m kUnknownTelechat s) kUnknownTelechat
    simp only [scanStep, hdn]
    by_cases hc : s ≠ "" ∧ contains (lookupA m kUnknownTelechat) s = false
    · rw [if_pos hc, lookupA_appendA_self]
      exact List.mem_append_right _ (List.mem_singleton_self s)
    · rw [if_neg hc]
      by_cases hcont : contains (lookupA m kUnknownTelechat) s = false
      · exact absurd ⟨hne, hcont⟩ hc
      · rw [Bool.not_eq_false] at hcont
        rw [contains_iff] at hcont
        exact hcont

theorem claim_C9_witness :
    fetchAgenda (AgendaResp.json (mkPayload "2024-01-10" [("s1", [("draft-a", "00")])])) =
      Except.ok (appendAll [] "2024-01-10" (idsOf [("s1", [("draft-a", "00")])])) ∧
    lookupA (appendAll [] "2024-01-10" (idsOf [("s1", [("draft-a", "00")])])) "2024-01-10" =
      idsOf [("s1", [("draft-a", "00")])] ∧
    "draft-x" ∈ lookupA
        (scan [Tok.startTag "a" [("href", "/doc/draft-x")], Tok.textTok "draft-x"]
          kUnknownTelechat []) kUnknownTelechat := by
  refine ⟨(claim_C9.1 "2024-01-10" [("s1", [("draft-a", "00")])]).1,
          (claim_C9.1 "2024-01-10" [("s1", [("draft-a", "00")])]).2.1, ?_⟩
  exact claim_C9.2 [("href", "/doc/draft-x")] "draft-x" [] [] (by decide) (by decide)

/-! ## Claim C3 -/

/-- C3 counterexample: a body that decodes to an object lacking the required
fields (here the empty object `{}`) does NOT produce a DecodeError result
returned to the caller: the unchecked type assertion
`agenda["telechat-date"].(string)` raises a runtime panic instead. -/
theorem claim_C3_counterexample :
    isDecodeError (fetchAgenda (AgendaResp.json (JVal.obj []))) = false ∧
    fetchAgenda (AgendaResp.json (JVal.obj [])) =
      Except.error (AErr.panic "telechat-date") := by
  exact ⟨rfl, rfl⟩

/-- C3 (amended): a response body that fails JSON unmarshalling is returned
to the caller as a decode-error value; a body that unmarshals but lacks the
required structural fields, or has them at the wrong type, makes `fetchAgenda`
abort via a runtime panic from the failed type assertion (not a returned
error value).  In every failing case the run aborts with a non-zero status
before any directory is created or any download is attempted. -/
theorem claim_C3 :
    (∀ (fields : List (String × JVal)),
       (∀ s, jlookup fields "telechat-date" ≠ some (JVal.str s)) →
       decodePayload (JVal.obj fields) = Except.error (AErr.panic "telechat-date")) ∧
    (∀ (date : String) (fields : List (String × JVal)),
       jlookup fields "telechat-date" = some (JVal.str date) →
       (∀ ss, jlookup fields "sections" ≠ some (JVal.obj ss)) →
       decodePayload (JVal.obj fields) = Except.error (AErr.panic "sections")) ∧
    (∀ m, fetchAgenda (AgendaResp.badJSON m) =
       Except.error (AErr.decodeErr ("error unmarshalling agenda: " ++ m))) ∧
    (∀ (home bflag : String) (w : World) (e : AErr),
       bflag ≠ "" →
       statOk w (expand home bflag) = true →
       fetchAgenda w.agendaResp = Except.error e →
       (mainModel home bflag w).exitCode ≠ 0 ∧
       (mainModel home bflag w).dirsAttempted = false ∧
       (mainModel home bflag w).outcomes = []) := by
  refine ⟨?_, ?_, ?_, ?_⟩
  · intro fields h
    cases hj : jlookup fields "telechat-date" with
    | none => simp [decodePayload, hj]
    | some v =>
      cases v with
      | str s => exact absurd hj (h s)
      | null => simp [decodePayload, hj]
      | boolean b => simp [decodePayload, hj]
      | num n => simp [decodePayload, hj]
      | arr xs => simp [decodePayload, hj]
      | obj fs => simp [decodePayload, hj]
  · intro date fields hdate h
    cases hj : jlookup fields "sections" with
    | none => simp [decodePayload, hdate, hj]
    | some v =>
      cases v with
      | obj fs => exact absurd hj (h fs)
      | null => simp [decodePayload, hdate, hj]
      | boolean b => simp [decodePayload, hdate, hj]
      | num n => simp [decodePayload, hdate, hj]
      | arr xs => simp [decodePayload, hdate, hj]
      | str s => simp [decodePayload, hdate, hj]
  · intro m
    rfl
  · intro home bflag w e hb hs hfa
    cases e with
    | fetchErr m => simp [mainModel, hb, hs, hfa]
    | decodeErr m => simp [mainModel, hb, hs, hfa]
    | panic site => simp [mainModel, hb, hs, hfa]

/-- A world whose base directory exists and whose agenda response decodes to
the empty JSON object (missing the required fields). -/
def wPanic : World :=
  { paths := [("/base", true)], createRes := fun _ => none, getRes := fun _ => none,
    copyRes := fun _ => Except.ok 7, mkdirRes := fun _ => MkdirRes.ok,
    agendaResp := AgendaResp.json (JVal.obj []) }

theorem claim_C3_witness :
    decodePayload (JVal.obj []) = Except.error (AErr.panic "telechat-date") ∧
    fetchAgenda (AgendaResp.badJSON "unexpected end of JSON input") =
      Except.error (AErr.decodeErr
        ("error unmarshalling agenda: " ++ "unexpected end of JSON input")) ∧
    (mainModel "/home/u" "/base" wPanic).exitCode ≠ 0 ∧
    (mainModel "/home/u" "/base" wPanic).dirsAttempted = false ∧
    (mainModel "/home/u" "/base" wPanic).outcomes = [] := by
  have h1 := claim_C3.1 [] (fun s h => by simp [jlookup] at h)
  have h3 := claim_C3.2.2.1 "unexpected end of JSON input"
  have h4 := claim_C3.2.2.2 "/home/u" "/base" wPanic (AErr.panic "telechat-date")
    (by decide) (by decide) rfl
  exact ⟨h1, h3, h4.1, h4.2.1, h4.2.2⟩

/-! ## Lemmas about the per-document fetch and the task runner -/

/-- A path that exists keeps existing when another path is recorded. -/
theorem statOk_insert (w : World) (q p : String) (bb : Bool) (h : statOk w p = true) :
    statOk { w with paths := (q, bb) :: w.paths } p = true := by
  simp [statOk] at h ⊢
  exact Or.inr h

/-- The "already existed" branch of `fetch_doc`/`fetchDoc`: if the
destination path exists, the task reports the skip outcome, leaves the world
unchanged, and performs no action beyond the `os.Stat`. -/
theorem fetchDoc_already (w : World) (b d doc : String)
    (h : statOk w (docPath b d doc) = true) :
    fetchDoc w b d doc =
      (Outcome.alreadyExisted d (doc ++ ".pdf"), w, [Act.statA (docPath b d doc)]) := by
  simp [fetchDoc, h]

/-- The file-create-failure branch: the error outcome is reported and the
world is unchanged. -/
theorem fetchDoc_createFail (w : World) (b d doc e : String)
    (hs : statOk w (docPath b d doc) = false)
    (hc : w.createRes (docPath b d doc) = some e) :
    fetchDoc w b d doc =
      (Outcome.createError (docPath b d doc) e, w,
       [Act.statA (docPath b d doc), Act.createA (docPath b d doc)]) := by
  simp [fetchDoc, hs, hc]

/-- A retrieval task never removes an existing path. -/
theorem fetchDoc_mono (w : World) (b d doc p : String) (h : statOk w p = true) :
    statOk (fetchDoc w b d doc).2.1 p = true := by
  simp only [fetchDoc]
  by_cases hs : statOk w (docPath b d doc) = true
  · simp [hs, h]
  · rw [Bool.not_eq_true] at hs
    simp only [hs, Bool.false_eq_true, if_false]
    cases hc : w.createRes (docPath b d doc) with
    | some e => simp [h]
    | none =>
      cases hg : w.getRes (kDocURL ++ (doc ++ ".pdf")) with
      | some e => simp [statOk_insert w _ p false h]
      | none =>
        cases hcopy : w.copyRes (kDocURL ++ (doc ++ ".pdf")) with
        | error e => simp [statOk_insert w _ p false h]
        | ok n => simp [statOk_insert w _ p false h]

/-- After a task reports a success (`downloaded`) outcome, the destination
path exists. -/
theorem fetchDoc_success_statOk (w : World) (b d doc dd fn : String) (n : Nat)
    (h : (fetchDoc w b d doc).1 = Outcome.downloaded dd fn n) :
    statOk (fetchDoc w b d doc).2.1 (docPath b d doc) = true := by
  simp only [fetchDoc] at h ⊢
  by_cases hs : statOk w (docPath b d doc) = true
  · simp [hs] at h
  · rw [Bool.not_eq_true] at hs
    simp only [hs, Bool.false_eq_true, if_false] at h ⊢
    cases hc : w.createRes (docPath b d doc) with
    | some e => simp [hc] at h
    | none =>
      simp only [hc] at h ⊢
      cases hg : w.getRes (kDocURL ++ (doc ++ ".pdf")) with
      | some e => simp [hg] at h
      | none =>
        simp only [hg] at h ⊢
        cases hcopy : w.copyRes (kDocURL ++ (doc ++ ".pdf")) with
        | error e => simp [hcopy] at h
        | ok nn => simp [statOk]

/-- One outcome per launched task. -/
theorem runTasks_length (b : String) :
    ∀ (tasks : List (String × String)) (w : World),
      (runTasks w b tasks).1.length = tasks.length := by
  intro tasks
  induction tasks with
  | nil => intro w; simp [runTasks]
  | cons t rest ih =>
    intro w
    obtain ⟨d0, doc0⟩ := t
    simp [runTasks, ih]

/-- The task runner never removes an existing path. -/
theorem runTasks_mono (b p : String) :
    ∀ (tasks : List (String × String)) (w : World), statOk w p = true →
      statOk (runTasks w b tasks).2 p = true := by
  intro tasks
  induction tasks with
  | nil => intro w h; exact h
  | cons t rest ih =>
    intro w h
    obtain ⟨d0, doc0⟩ := t
    simp only [runTasks]
    exact ih _ (fetchDoc_mono w b d0 doc0 p h)

/-- If the `i`-th task reported a success outcome, the `i`-th destination
path exists in the final world of the run. -/
theorem runTasks_success_statOk (b : String) :
    ∀ (tasks : List (String × String)) (w : World) (i : Nat) (d doc : String) (n : Nat),
      tasks[i]? = some (d, doc) →
      (runTasks w b tasks).1[i]? = some (Outcome.downloaded d (doc ++ ".pdf") n) →
      statOk (runTasks w b tasks).2 (docPath b d doc) = true := by
  intro tasks
  induction tasks with
  | nil => intro w i d doc n h1 h2; simp at h1
  | cons t rest ih =>
    intro w i d doc n h1 h2
    obtain ⟨d0, doc0⟩ := t
    cases i with
    | zero =>
      simp at h1
      obtain ⟨hd, hdoc⟩ := h1
      subst hd
      subst hdoc
      simp only [runTasks] at h2 ⊢
      simp at h2
      exact runTasks_mono b _ rest _ (fetchDoc_success_statOk w b d0 doc0 d0 (doc0 ++ ".pdf") n h2)
    | succ i =>
      simp at h1
      simp only [runTasks] at h2 ⊢
      simp at h2
      exact ih _ i d doc n h1 h2

/-- If the `i`-th destination path already exists when the run starts, the
`i`-th outcome is "already existed". -/
theorem runTasks_already (b : String) :
    ∀ (tasks : List (String × String)) (w : World) (i : Nat) (d doc : String),
      tasks[i]? = some (d, doc) →
      statOk w (docPath b d doc) = true →
      (runTasks w b tasks).1[i]? = some (Outcome.alreadyExisted d (doc ++ ".pdf")) := by
  intro tasks
  induction tasks with
  | nil => intro w i d doc h1 h2; simp at h1
  | cons t rest ih =>
    intro w i d doc h1 h2
    obtain ⟨d0, doc0⟩ := t
    cases i with
    | zero =>
      simp at h1
      obtain ⟨hd, hdoc⟩ := h1
      subst hd
      subst hdoc
      simp only [runTasks]
      rw [fetchDoc_already w b d0 doc0 h2]
      simp
    | succ i =>
      simp at h1
      simp only [runTasks]
      simp only [List.getElem?_cons_succ]
      exact ih _ i d doc h1 (fetchDoc_mono w b d0 doc0 _ h2)

/-! ## Claim C4 -/

/-- C4: if the destination file `baseDir/dateKey/identifier.pdf` already
exists, the task reports "already existed", performs no further action (only
the `os.Stat`), and leaves the world unchanged; consequently, in a second
run over the same tasks and base directory, every task whose first-run
outcome was a success reports "already existed" the second time. -/
theorem claim_C4 (w : World) (basedir : String) :
    (∀ date doc, statOk w (docPath basedir date doc) = true →
       fetchDoc w basedir date doc =
         (Outcome.alreadyExisted date (doc ++ ".pdf"), w,
          [Act.statA (docPath basedir date doc)])) ∧
    (∀ (tasks : List (String × String)) (i : Nat) (date doc : String) (n : Nat),
       tasks[i]? = some (date, doc) →
       (runTasks w basedir tasks).1[i]? = some (Outcome.downloaded date (doc ++ ".pdf") n) →
       (runTasks (runTasks w basedir tasks).2 basedir tasks).1[i]? =
         some (Outcome.alreadyExisted date (doc ++ ".pdf"))) := by
  constructor
  · intro date doc h
    exact fetchDoc_already w basedir date doc h
  · intro tasks i date doc n h1 h2
    exact runTasks_already basedir tasks _ i date doc h1
      (runTasks_success_statOk basedir tasks w i date doc n h1 h2)

/-- A world in which the destination file already exists. -/
def wHas : World :=
  { paths := [(docPath "/base" "2024-01-10" "draft-foo-01", false)],
    createRes := fun _ => none, getRes := fun _ => none,
    copyRes := fun _ => Except.ok 7, mkdirRes := fun _ => MkdirRes.ok,
    agendaResp := AgendaResp.badJSON "unused" }

theorem claim_C4_witness :
    statOk wHas (docPath "/base" "2024-01-10" "draft-foo-01") = true ∧
    fetchDoc wHas "/base" "2024-01-10" "draft-foo-01" =
      (Outcome.alreadyExisted "2024-01-10" ("draft-foo-01" ++ ".pdf"), wHas,
       [Act.statA (docPath "/base" "2024-01-10" "draft-foo-01")]) ∧
    (runTasks wMkdirOk "/base" [("2024-01-10", "draft-foo-01")]).1[0]? =
      some (Outcome.downloaded "2024-01-10" ("draft-foo-01" ++ ".pdf") 7) ∧
    (runTasks (runTasks wMkdirOk "/base" [("2024-01-10", "draft-foo-01")]).2 "/base"
        [("2024-01-10", "draft-foo-01")]).1[0]? =
      some (Outcome.alreadyExisted "2024-01-10" ("draft-foo-01" ++ ".pdf")) := by
  have h1 : statOk wHas (docPath "/base" "2024-01-10" "draft-foo-01") = true := by decide
  have h3 : (runTasks wMkdirOk "/base" [("2024-01-10", "draft-foo-01")]).1[0]? =
      some (Outcome.downloaded "2024-01-10" ("draft-foo-01" ++ ".pdf") 7) := by decide
  refine ⟨h1, (claim_C4 wHas "/base").1 "2024-01-10" "draft-foo-01" h1, h3, ?_⟩
  exact (claim_C4 wMkdirOk "/base").2 [("2024-01-10", "draft-foo-01")] 0
    "2024-01-10" "draft-foo-01" 7 (by decide) h3

/-- The network-request-failure branch: the file was created (and stays on
disk), the GET fails, and the error outcome is reported. -/
theorem fetchDoc_netFail (w : World) (b d doc e : String)
    (hs : statOk w (docPath b d doc) = false)
    (hc : w.createRes (docPath b d doc) = none)
    (hg : w.getRes (kDocURL ++ (doc ++ ".pdf")) = some e) :
    fetchDoc w b d doc =
      (Outcome.downloadError (kDocURL ++ (doc ++ ".pdf")) e,
       { w with paths := (docPath b d doc, false) :: w.paths },
       [Act.statA (docPath b d doc), Act.createA (docPath b d doc),
        Act.getA (kDocURL ++ (doc ++ ".pdf"))]) := by
  simp [fetchDoc, hs, hc, hg]

/-- The stream-copy-failure branch: the file was created (and the partial
file stays on disk), the copy fails, and the error outcome is reported. -/
theorem fetchDoc_copyFail (w : World) (b d doc e : String)
    (hs : statOk w (docPath b d doc) = false)
    (hc : w.createRes (docPath b d doc) = none)
    (hg : w.getRes (kDocURL ++ (doc ++ ".pdf")) = none)
    (hcp : w.copyRes (kDocURL ++ (doc ++ ".pdf")) = Except.error e) :
    fetchDoc w b d doc =
      (Outcome.copyError (kDocURL ++ (doc ++ ".pdf")) e,
       { w with paths := (docPath b d doc, false) :: w.paths },
       [Act.statA (docPath b d doc), Act.createA (docPath b d doc),
        Act.getA (kDocURL ++ (doc ++ ".pdf")), Act.copyA (kDocURL ++ (doc ++ ".pdf"))]) := by
  simp [fetchDoc, hs, hc, hg, hcp]

/-- Whatever happens, a task changes the world by at most recording its own
destination path (the `os.Create`); it never touches another task's path. -/
theorem fetchDoc_world_or (w : World) (b d doc : String) :
    (fetchDoc w b d doc).2.1 = w ∨
    (fetchDoc w b d doc).2.1 = { w with paths := (docPath b d doc, false) :: w.paths } := by
  simp only [fetchDoc]
  by_cases hs : statOk w (docPath b d doc) = true
  · simp [hs]
  · rw [Bool.not_eq_true] at hs
    simp only [hs, Bool.false_eq_true, if_false]
    cases hc : w.createRes (docPath b d doc) with
    | some e => simp
    | none =>
      cases hg : w.getRes (kDocURL ++ (doc ++ ".pdf")) with
      | some e => simp
      | none =>
        cases hcp : w.copyRes (kDocURL ++ (doc ++ ".pdf")) with
        | error e => simp
        | ok n => simp

/-- Recording one path leaves the existence of every other path unchanged. -/
theorem statOk_insert_ne (w : World) (q p : String) (bb : Bool) (h : q ≠ p) :
    statOk { w with paths := (q, bb) :: w.paths } p = statOk w p := by
  simp [statOk, List.any_cons, h]

theorem isPrefixOf_append_self : ∀ (l r : List Char), l.isPrefixOf (l ++ r) = true := by
  intro l
  induction l with
  | nil => intro r; simp [List.isPrefixOf]
  | cons c cs ih => intro r; simp [List.isPrefixOf, ih]

theorem startsWithStr_append (p t : String) : startsWithStr (p ++ t) p = true := by
  simp only [startsWithStr]
  rw [String.data_append]
  exact isPrefixOf_append_self p.data t.data

theorem render_createError_eq (p m : String) :
    (Outcome.createError p m).render = "Error" ++ (" creating " ++ (p ++ (": " ++ m))) := by
  show "Error creating " ++ p ++ ": " ++ m = _
  rw [show "Error creating " = "Error" ++ " creating " from rfl]
  rw [String.append_assoc, String.append_assoc, String.append_assoc]

theorem render_downloadError_eq (u m : String) :
    (Outcome.downloadError u m).render = "Error" ++ (" while downloading " ++ (u ++ ("-" ++ m))) := by
  show "Error while downloading " ++ u ++ "-" ++ m = _
  rw [show "Error while downloading " = "Error" ++ " while downloading " from rfl]
  rw [String.append_assoc, String.append_assoc, String.append_assoc]

theorem render_copyError_eq (u m : String) :
    (Outcome.copyError u m).render =
      "Error" ++ (" while downloading: " ++ (u ++ (" - " ++ (m ++ " ")))) := by
  show "Error while downloading: " ++ u ++ " - " ++ m ++ " " = _
  rw [show "Error while downloading: " = "Error" ++ " while downloading: " from rfl]
  rw [String.append_assoc, String.append_assoc, String.append_assoc, String.append_assoc]

/-- Every failure outcome renders to a string starting with "Error". -/
theorem startsWith_error_createError (p m : String) :
    startsWithStr (Outcome.createError p m).render "Error" = true := by
  rw [render_createError_eq]
  exact startsWithStr_append "Error" _

theorem startsWith_error_downloadError (u m : String) :
    startsWithStr (Outcome.downloadError u m).render "Error" = true := by
  rw [render_downloadError_eq]
  exact startsWithStr_append "Error" _

theorem startsWith_error_copyError (u m : String) :
    startsWithStr (Outcome.copyError u m).render "Error" = true := by
  rw [render_copyError_eq]
  exact startsWithStr_append "Error" _

/-- A task's retrieval fails: its `os.Create` fails, or its `http.Get`
fails, or its `io.Copy` fails.  (The oracles are functions of the path/URL
only, so this predicate does not change as the run inserts paths.) -/
def taskFails (w : World) (b d doc : String) : Prop :=
  (∃ e, w.createRes (docPath b d doc) = some e) ∨
  (w.createRes (docPath b d doc) = none ∧
   ∃ e, w.getRes (kDocURL ++ (doc ++ ".pdf")) = some e) ∨
  (w.createRes (docPath b d doc) = none ∧
   w.getRes (kDocURL ++ (doc ++ ".pdf")) = none ∧
   ∃ e, w.copyRes (kDocURL ++ (doc ++ ".pdf")) = Except.error e)

/-- A failing task (of any of the three kinds) reports an error outcome. -/
theorem fetchDoc_fail_error (w : World) (b d doc : String)
    (hs : statOk w (docPath b d doc) = false) (hf : taskFails w b d doc) :
    startsWithStr ((fetchDoc w b d doc).1).render "Error" = true := by
  rcases hf with ⟨e, he⟩ | ⟨hc, e, hg⟩ | ⟨hc, hg, e, hcp⟩
  · rw [fetchDoc_createFail w b d doc e hs he]
    exact startsWith_error_createError _ _
  · rw [fetchDoc_netFail w b d doc e hs hc hg]
    exact startsWith_error_downloadError _ _
  · rw [fetchDoc_copyFail w b d doc e hs hc hg hcp]
    exact startsWith_error_copyError _ _

/-- If no destination pre-exists, the destination paths are pairwise
distinct, and every task's retrieval fails (each by its own kind of
failure), every outcome of the run is an error string.  Pairwise-distinct
paths are needed because a failed download still leaves the created file on
disk, so a duplicated destination would report "already existed". -/
theorem runTasks_allFail (b : String) :
    ∀ (tasks : List (String × String)) (w : World),
      (∀ d doc, (d, doc) ∈ tasks → statOk w (docPath b d doc) = false) →
      (∀ d doc, (d, doc) ∈ tasks → taskFails w b d doc) →
      (tasks.map (fun t => docPath b t.1 t.2)).Nodup →
      ∀ o ∈ (runTasks w b tasks).1, startsWithStr o.render "Error" = true := by
  intro tasks
  induction tasks with
  | nil => intro w _ _ _ o ho; simp [runTasks] at ho
  | cons t rest ih =>
    intro w hstat hfail hnd o ho
    obtain ⟨d0, doc0⟩ := t
    simp only [runTasks] at ho
    simp at ho
    simp only [List.map_cons, List.nodup_cons] at hnd
    obtain ⟨hnotin, hndrest⟩ := hnd
    cases ho with
    | inl h0 =>
      subst h0
      exact fetchDoc_fail_error w b d0 doc0 (hstat d0 doc0 (by simp)) (hfail d0 doc0 (by simp))
    | inr htail =>
      cases fetchDoc_world_or w b d0 doc0 with
      | inl heq =>
        rw [heq] at htail
        exact ih w (fun d doc hm => hstat d doc (List.mem_cons_of_mem _ hm))
          (fun d doc hm => hfail d doc (List.mem_cons_of_mem _ hm)) hndrest o htail
      | inr heq =>
        rw [heq] at htail
        refine ih _ ?_ ?_ hndrest o htail
        · intro d doc hm
          have hne : docPath b d0 doc0 ≠ docPath b d doc := by
            intro hcontra
            exact hnotin (by rw [hcontra]; exact List.mem_map_of_mem _ hm)
          rw [statOk_insert_ne w _ _ false hne]
          exact hstat d doc (List.mem_cons_of_mem _ hm)
        · intro d doc hm
          exact hfail d doc (List.mem_cons_of_mem _ hm)

/-! ## Claim C6 -/

/-- C6: every per-document failure — file-create failure, network failure,
or stream-copy failure — is converted into an error outcome string for that
task only.  Parts 1–3 give the exact outcome, world and action trace of each
failing branch: a failure changes the world by at most recording the task's
own destination path, so it cannot alter any other task's behaviour, and the
outcome renders to a string starting with "Error".  Part 4: under an
arbitrary world — any mix of per-document successes and failures of all
kinds — the run is never aborted by a retrieval failure: `main` still exits
with status 0 and collects exactly one outcome per task.  Part 5: even when
every document's retrieval fails (each by any of the three kinds), the
process exits 0 and every collected outcome is an error string. -/
theorem claim_C6 :
    (∀ (w : World) (b d doc e : String),
       statOk w (docPath b d doc) = false →
       w.createRes (docPath b d doc) = some e →
       fetchDoc w b d doc =
         (Outcome.createError (docPath b d doc) e, w,
          [Act.statA (docPath b d doc), Act.createA (docPath b d doc)]) ∧
       startsWithStr (Outcome.createError (docPath b d doc) e).render "Error" = true) ∧
    (∀ (w : World) (b d doc e : String),
       statOk w (docPath b d doc) = false →
       w.createRes (docPath b d doc) = none →
       w.getRes (kDocURL ++ (doc ++ ".pdf")) = some e →
       fetchDoc w b d doc =
         (Outcome.downloadError (kDocURL ++ (doc ++ ".pdf")) e,
          { w with paths := (docPath b d doc, false) :: w.paths },
          [Act.statA (docPath b d doc), Act.createA (docPath b d doc),
           Act.getA (kDocURL ++ (doc ++ ".pdf"))]) ∧
       startsWithStr (Outcome.downloadError (kDocURL ++ (doc ++ ".pdf")) e).render "Error" = true) ∧
    (∀ (w : World) (b d doc e : String),
       statOk w (docPath b d doc) = false →
       w.createRes (docPath b d doc) = none →
       w.getRes (kDocURL ++ (doc ++ ".pdf")) = none →
       w.copyRes (kDocURL ++ (doc ++ ".pdf")) = Except.error e →
       fetchDoc w b d doc =
         (Outcome.copyError (kDocURL ++ (doc ++ ".pdf")) e,
          { w with paths := (docPath b d doc, false) :: w.paths },
          [Act.statA (docPath b d doc), Act.createA (docPath b d doc),
           Act.getA (kDocURL ++ (doc ++ ".pdf")), Act.copyA (kDocURL ++ (doc ++ ".pdf"))]) ∧
       startsWithStr (Outcome.copyError (kDocURL ++ (doc ++ ".pdf")) e).render "Error" = true) ∧
    (∀ (home bflag : String) (w : World) (telechats : AgendaMap),
       bflag ≠ "" →
       statOk w (expand home bflag) = true →
       fetchAgenda w.agendaResp = Except.ok telechats →
       mkdirAll w (expand home bflag) (telechats.map Prod.fst) = Except.ok () →
       (mainModel home bflag w).exitCode = 0 ∧
       (mainModel home bflag w).outcomes.length = totalCount telechats) ∧
    (∀ (home bflag : String) (w : World) (telechats : AgendaMap),
       bflag ≠ "" →
       statOk w (expand home bflag) = true →
       fetchAgenda w.agendaResp = Except.ok telechats →
       mkdirAll w (expand home bflag) (telechats.map Prod.fst) = Except.ok () →
       (∀ d doc, (d, doc) ∈ tasksOf telechats →
          statOk w (docPath (expand home bflag) d doc) = false) →
       (∀ d doc, (d, doc) ∈ tasksOf telechats → taskFails w (expand home bflag) d doc) →
       ((tasksOf telechats).map (fun t => docPath (expand home bflag) t.1 t.2)).Nodup →
       (mainModel home bflag w).exitCode = 0 ∧
       ∀ s ∈ (mainModel home bflag w).outcomes, startsWithStr s "Error" = true) := by
  refine ⟨?_, ?_, ?_, ?_, ?_⟩
  · intro w b d doc e hs hc
    exact ⟨fetchDoc_createFail w b d doc e hs hc, startsWith_error_createError _ _⟩
  · intro w b d doc e hs hc hg
    exact ⟨fetchDoc_netFail w b d doc e hs hc hg, startsWith_error_downloadError _ _⟩
  · intro w b d doc e hs hc hg hcp
    exact ⟨fetchDoc_copyFail w b d doc e hs hc hg hcp, startsWith_error_copyError _ _⟩
  · intro home bflag w telechats hb hs hfa hmk
    have hmain : mainModel home bflag w =
        { exitCode := 0, usageShown := false, agendaAttempted := true, dirsAttempted := true,
          outcomes :=
            (runTasks w (expand home bflag) (tasksOf telechats)).1.map Outcome.render } := by
      simp [mainModel, hb, hs, hfa, hmk]
    rw [hmain]
    exact ⟨rfl, by simp [runTasks_length, totalCount]⟩
  · intro home bflag w telechats hb hs hfa hmk hnofile hfails hnd
    have hmain : mainModel home bflag w =
        { exitCode := 0, usageShown := false, agendaAttempted := true, dirsAttempted := true,
          outcomes :=
            (runTasks w (expand home bflag) (tasksOf telechats)).1.map Outcome.render } := by
      simp [mainModel, hb, hs, hfa, hmk]
    rw [hmain]
    refine ⟨rfl, ?_⟩
    intro s hsmem
    simp only [List.mem_map] at hsmem
    obtain ⟨o, ho, hrend⟩ := hsmem
    rw [← hrend]
    exact runTasks_allFail (expand home bflag) (tasksOf telechats) w hnofile hfails hnd o ho

/-- A world whose base directory exists, whose agenda decodes to two
documents, and in which the first document's `os.Create` fails, the second
document's `http.Get` fails, and a third URL's `io.Copy` fails. -/
def wMixedFail : World :=
  { paths := [("/base", true)],
    createRes := fun p =>
      if p = "/base/2024-01-10/draft-a-01.pdf" then some "permission denied" else none,
    getRes := fun u =>
      if u = "https://tools.ietf.org/pdf/draft-b-02.pdf" then some "connection refused" else none,
    copyRes := fun u =>
      if u = "https://tools.ietf.org/pdf/draft-c-03.pdf" then Except.error "unexpected EOF"
      else Except.ok 7,
    mkdirRes := fun _ => MkdirRes.ok,
    agendaResp := AgendaResp.json
      (mkPayload "2024-01-10" [("s1", [("draft-a", "01"), ("draft-b", "02")])]) }

theorem claim_C6_witness :
    (mainModel "/h" "/base" wMixedFail).exitCode = 0 ∧
    (mainModel "/h" "/base" wMixedFail).outcomes.length =
      totalCount [("2024-01-10", ["draft-a-01", "draft-b-02"])] ∧
    fetchDoc wMixedFail "/base" "2024-01-10" "draft-a-01" =
      (Outcome.createError (docPath "/base" "2024-01-10" "draft-a-01") "permission denied",
       wMixedFail,
       [Act.statA (docPath "/base" "2024-01-10" "draft-a-01"),
        Act.createA (docPath "/base" "2024-01-10" "draft-a-01")]) ∧
    fetchDoc wMixedFail "/base" "2024-01-10" "draft-b-02" =
      (Outcome.downloadError (kDocURL ++ ("draft-b-02" ++ ".pdf")) "connection refused",
       { wMixedFail with
           paths := (docPath "/base" "2024-01-10" "draft-b-02", false) :: wMixedFail.paths },
       [Act.statA (docPath "/base" "2024-01-10" "draft-b-02"),
        Act.createA (docPath "/base" "2024-01-10" "draft-b-02"),
        Act.getA (kDocURL ++ ("draft-b-02" ++ ".pdf"))]) ∧
    fetchDoc wMixedFail "/base" "2024-01-10" "draft-c-03" =
      (Outcome.copyError (kDocURL ++ ("draft-c-03" ++ ".pdf")) "unexpected EOF",
       { wMixedFail with
           paths := (docPath "/base" "2024-01-10" "draft-c-03", false) :: wMixedFail.paths },
       [Act.statA (docPath "/base" "2024-01-10" "draft-c-03"),
        Act.createA (docPath "/base" "2024-01-10" "draft-c-03"),
        Act.getA (kDocURL ++ ("draft-c-03" ++ ".pdf")),
        Act.copyA (kDocURL ++ ("draft-c-03" ++ ".pdf"))]) ∧
    startsWithStr "Error creating /base/2024-01-10/draft-a-01.pdf: permission denied"
      "Error" = true := by
  have h4 := claim_C6.2.2.2.1 "/h" "/base" wMixedFail
    [("2024-01-10", ["draft-a-01", "draft-b-02"])] (by decide) (by decide) rfl rfl
  have h5 := claim_C6.2.2.2.2 "/h" "/base" wMixedFail
    [("2024-01-10", ["draft-a-01", "draft-b-02"])] (by decide) (by decide) rfl rfl
    (fun d doc hm => by
      simp [tasksOf] at hm
      rcases hm with ⟨hd, hdoc⟩ | ⟨hd, hdoc⟩ <;> (subst hd; subst hdoc; decide))
    (fun d doc hm => by
      simp [tasksOf] at hm
      rcases hm with ⟨hd, hdoc⟩ | ⟨hd, hdoc⟩
      · subst hd; subst hdoc
        exact Or.inl ⟨"permission denied", by decide⟩
      · subst hd; subst hdoc
        exact Or.inr (Or.inl ⟨by decide, "connection refused", by decide⟩))
    (by decide)
  refine ⟨h4.1, h4.2,
    (claim_C6.1 wMixedFail "/base" "2024-01-10" "draft-a-01" "permission denied"
      (by decide) (by decide)).1,
    (claim_C6.2.1 wMixedFail "/base" "2024-01-10" "draft-b-02" "connection refused"
      (by decide) (by decide) (by decide)).1,
    (claim_C6.2.2.1 wMixedFail "/base" "2024-01-10" "draft-c-03" "unexpected EOF"
      (by decide) (by decide) (by decide) rfl).1, ?_⟩
  exact h5.2 "Error creating /base/2024-01-10/draft-a-01.pdf: permission denied" (by decide)

/-! ## Claim C7 -/

/-- Directory preparation succeeds exactly when no date's `os.Mkdir` fails
with a non-`IsExist` error ("already exists" is skipped like a success). -/
theorem mkdirAll_ok_iff (w : World) (basedir : String) :
    ∀ dates : List String,
      (mkdirAll w basedir dates = Except.ok () ↔
       ∀ d ∈ dates, ∀ m, w.mkdirRes (filepathJoin basedir d) ≠ MkdirRes.otherErr m) := by
  intro dates
  induction dates with
  | nil => simp [mkdirAll]
  | cons date rest ih =>
    simp only [mkdirAll]
    cases hmr : w.mkdirRes (filepathJoin basedir date) with
    | otherErr m =>
      constructor
      · intro h
        exact Except.noConfusion h
      · intro hall
        exact absurd hmr (hall date (by simp) m)
    | ok =>
      rw [ih]
      constructor
      · intro hrest d hd m2
        rcases List.mem_cons.mp hd with heq | hmem
        · subst heq
          rw [hmr]
          intro hcontra
          cases hcontra
        · exact hrest d hmem m2
      · intro hall d hd m2
        exact hall d (List.mem_cons_of_mem _ hd) m2
    | alreadyExists =>
      rw [ih]
      constructor
      · intro hrest d hd m2
        rcases List.mem_cons.mp hd with heq | hmem
        · subst heq
          rw [hmr]
          intro hcontra
          cases hcontra
        · exact hrest d hmem m2
      · intro hall d hd m2
        exact hall d (List.mem_cons_of_mem _ hd) m2

/-- C7: directory preparation attempts `baseDir/dateKey` for every date key;
a creation failure whose cause is "already exists" is not an error
(preparation succeeds exactly when no date fails with another error), while
any other creation failure is fatal to the entire run — exit 255 with no
outcomes at all, not an error scoped to that one date. -/
theorem claim_C7 :
    (∀ (w : World) (basedir : String) (dates : List String),
       mkdirAll w basedir dates = Except.ok () ↔
       ∀ d ∈ dates, ∀ m, w.mkdirRes (filepathJoin basedir d) ≠ MkdirRes.otherErr m) ∧
    (∀ (home bflag : String) (w : World) (telechats : AgendaMap) (e : String),
       bflag ≠ "" →
       statOk w (expand home bflag) = true →
       fetchAgenda w.agendaResp = Except.ok telechats →
       mkdirAll w (expand home bflag) (telechats.map Prod.fst) = Except.error e →
       (mainModel home bflag w).exitCode = 255 ∧
       (mainModel home bflag w).outcomes = []) := by
  constructor
  · intro w basedir dates
    exact mkdirAll_ok_iff w basedir dates
  · intro home bflag w telechats e hb hs hfa hmk
    simp [mainModel, hb, hs, hfa, hmk]

/-- A world whose base directory exists but where every `os.Mkdir` fails
with a non-`IsExist` error. -/
def wMkdirFail : World :=
  { paths := [("/base", true)],
    createRes := fun _ => none, getRes := fun _ => none,
    copyRes := fun _ => Except.ok 7,
    mkdirRes := fun _ => MkdirRes.otherErr "permission denied",
    agendaResp := AgendaResp.json (mkPayload "2024-01-10" [("s1", [("draft-foo", "01")])]) }

theorem claim_C7_witness :
    mkdirAll wMkdirOk "/base" ["2024-01-10"] = Except.ok () ∧
    (mainModel "/h" "/base" wMkdirFail).exitCode = 255 ∧
    (mainModel "/h" "/base" wMkdirFail).outcomes = [] := by
  refine ⟨?_, ?_⟩
  · exact (claim_C7.1 wMkdirOk "/base" ["2024-01-10"]).mpr
      (fun d hd m hcontra => by cases hcontra)
  · exact claim_C7.2 "/h" "/base" wMkdirFail [("2024-01-10", ["draft-foo-01"])]
      ("Error making " ++ filepathJoin "/base" "2024-01-10" ++ ": " ++ "permission denied")
      (by decide) (by decide) rfl rfl

/-! ## Claim C8 -/

/-- C8 counterexample: with a base-directory path that exists as a
NON-directory (a plain file), the pre-flight check passes — `os.Stat` only
checks existence — and the run goes on to attempt the agenda fetch with no
usage message, contradicting the claim that a base directory that "does not
exist as a directory" aborts the run before any network activity. -/
def wFileBase : World :=
  { paths := [("/base", false)],
    createRes := fun _ => none, getRes := fun _ => none,
    copyRes := fun _ => Except.ok 7, mkdirRes := fun _ => MkdirRes.ok,
    agendaResp := AgendaResp.transportErr "connection refused" }

theorem claim_C8_counterexample :
    wFileBase.paths = [("/base", false)] ∧
    (mainModel "/h" "/base" wFileBase).agendaAttempted = true ∧
    (mainModel "/h" "/base" wFileBase).usageShown = false := by
  exact ⟨rfl, rfl, rfl⟩

/-- C8 (amended): the pre-flight configuration check aborts, before any
agenda fetch or download, exactly in these cases: an unsupplied base
directory (fatal log, exit 1, no usage message), or a home-expanded path
that does not exist at all (usage message, exit 2).  The check is existence
only: a path that exists as a non-directory passes pre-flight. -/
theorem claim_C8 (home bflag : String) (w : World) :
    (bflag = "" →
       mainModel home bflag w =
         { exitCode := 1, usageShown := false, agendaAttempted := false,
           dirsAttempted := false, outcomes := [] }) ∧
    (bflag ≠ "" → statOk w (expand home bflag) = false →
       mainModel home bflag w =
         { exitCode := 2, usageShown := true, agendaAttempted := false,
           dirsAttempted := false, outcomes := [] }) := by
  constructor
  · intro h
    simp [mainModel, h]
  · intro hb hs
    simp [mainModel, hb, hs]

theorem claim_C8_witness :
    mainModel "/h" "" wMkdirOk =
      { exitCode := 1, usageShown := false, agendaAttempted := false,
        dirsAttempted := false, outcomes := [] } ∧
    mainModel "/h" "/nope" wMkdirOk =
      { exitCode := 2, usageShown := true, agendaAttempted := false,
        dirsAttempted := false, outcomes := [] } := by
  exact ⟨(claim_C8 "/h" "" wMkdirOk).1 rfl,
         (claim_C8 "/h" "/nope" wMkdirOk).2 (by decide) (by decide)⟩

/-! ## Claim C10 -/

theorem matchAfter_self : ∀ (pat rest : List Char), matchAfter pat (pat ++ rest) = some rest := by
  intro pat
  induction pat with
  | nil => intro rest; rfl
  | cons p ps ih => intro rest; simp [matchAfter, ih]

theorem matchAfter_append (pat : List Char) :
    ∀ (l r : List Char), matchAfter pat l = some r → l = pat ++ r := by
  induction pat with
  | nil =>
    intro l r h
    simp [matchAfter] at h
    simp [h]
  | cons p ps ih =>
    intro l r h
    cases l with
    | nil => simp [matchAfter] at h
    | cons c cs =>
      simp only [matchAfter] at h
      by_cases hpc : p = c
      · rw [if_pos hpc] at h
        simp [hpc, ih cs r h]
      · rw [if_neg hpc] at h
        simp at h

theorem findAfter_of_matchAfter (pat l r : List Char)
    (h : matchAfter pat l = some r) : findAfter pat l = some r := by
  cases l with
  | nil => simp [findAfter, h]
  | cons c cs => simp [findAfter, h]

theorem findAfter_some_decomp (pat : List Char) :
    ∀ (l r : List Char), findAfter pat l = some r → ∃ pre, l = pre ++ pat ++ r := by
  intro l
  induction l with
  | nil =>
    intro r h
    simp only [findAfter] at h
    refine ⟨[], ?_⟩
    simp [matchAfter_append pat [] r h]
  | cons c cs ih =>
    intro r h
    simp only [findAfter] at h
    cases hm : matchAfter pat (c :: cs) with
    | some rest =>
      rw [hm] at h
      cases h
      refine ⟨[], ?_⟩
      simp [matchAfter_append pat _ _ hm]
    | none =>
      rw [hm] at h
      obtain ⟨pre, hpre⟩ := ih r h
      exact ⟨c :: pre, by simp [hpre]⟩

/-- C10 counterexample: `ExtractDate` is built on an unanchored regexp, so
an input merely CONTAINING `"IESG telechat "` (not starting with it) does
not yield the sentinel, and the capture `(.*)` stops at a newline, so the
"entire remainder of the string" is not always returned verbatim. -/
theorem claim_C10_counterexample :
    ExtractDate "x IESG telechat 2017-04-27." = "2017-04-27." ∧
    ExtractDate "x IESG telechat 2017-04-27." ≠ kUnknownTelechat ∧
    startsWithStr "x IESG telechat 2017-04-27." "IESG telechat " = false ∧
    "IESG telechat a\nb" = String.mk (kTelechatPat ++ "a\nb".data) ∧
    ExtractDate "IESG telechat a\nb" ≠ "a\nb" ∧
    ExtractDate "IESG telechat a\nb" = "a" := by
  refine ⟨by decide, by decide, by decide, by decide, by decide, by decide⟩

/-- C10 (amended): for every input that starts with the literal
`"IESG telechat "`, `ExtractDate` returns the following characters up to the
end of the line (everything before a newline, trailing punctuation
included); it returns the sentinel `"Unknown-date"` exactly for inputs in
which the literal occurs nowhere — an occurrence anywhere in the string, not
only as a prefix, is matched. -/
theorem claim_C10 :
    (∀ post : List Char,
       ExtractDate (String.mk (kTelechatPat ++ post)) =
         String.mk (post.takeWhile (fun c => c ≠ '\n'))) ∧
    (∀ s : String, (∀ pre post : List Char, s.data ≠ pre ++ kTelechatPat ++ post) →
       ExtractDate s = kUnknownTelechat) := by
  constructor
  · intro post
    have hm : matchAfter kTelechatPat (kTelechatPat ++ post) = some post :=
      matchAfter_self _ _
    have hf := findAfter_of_matchAfter _ _ _ hm
    simp only [ExtractDate]
    rw [hf]
  · intro s h
    cases hf : findAfter kTelechatPat s.data with
    | none => simp [ExtractDate, hf]
    | some r =>
      obtain ⟨pre, hpre⟩ := findAfter_some_decomp _ _ _ hf
      exact absurd hpre (h pre r)

theorem claim_C10_witness :
    ExtractDate (String.mk (kTelechatPat ++ "2017-04-27.".data)) =
      String.mk ("2017-04-27.".data.takeWhile (fun c => c ≠ '\n')) ∧
    ExtractDate "nope" = kUnknownTelechat := by
  refine ⟨claim_C10.1 "2017-04-27.".data, ?_⟩
  apply claim_C10.2
  intro pre post h
  have hl := congrArg List.length h
  rw [List.length_append, List.length_append] at hl
  have h4 : ("nope".data).length = 4 := rfl
  have h14 : kTelechatPat.length = 14 := rfl
  rw [h4, h14] at hl
  omega
